import Mathlib

/-!
Verification of the riscv_ui telemetry simulator and delivery pipeline.

Shallow embedding of:
- `src/backend/src/server.js`  (device registry, population churn, transaction
  engine tick, REST telemetry endpoint)
- `src/src/components/DeviceTopology.vue` (resilient websocket client,
  activity tracker with decay timers, render coalescer)

JavaScript `Map`s are modelled as insertion-ordered association lists with
unique keys; `Math.random()` draws are modelled as explicit natural-number
oracles (`% bound` keeps each draw in the range the JS expression produces);
timestamps are abstract naturals.
-/

namespace RiscvUI

/-- JS `Map.has`. -/
def mapHasKey {α : Type} (m : List (String × α)) (k : String) : Bool :=
  m.any (fun p => p.1 = k)

/-- JS `Map.get`. -/
def mapLookup {α : Type} : List (String × α) → String → Option α
  | [], _ => none
  | (k', v) :: rest, k => if k' = k then some v else mapLookup rest k

/-- JS `Map.set`: replace in place when the key exists, else append. -/
def mapSet {α : Type} : List (String × α) → String → α → List (String × α)
  | [], k, v => [(k, v)]
  | (k', v') :: rest, k, v =>
    if k' = k then (k, v) :: rest else (k', v') :: mapSet rest k v

/-- JS `Map.delete` (at most one entry carries the key in a real `Map`). -/
def mapDelete {α : Type} (m : List (String × α)) (k : String) : List (String × α) :=
  m.filter (fun p => !(p.1 = k))

/-- Keys of the map, in insertion order. -/
def mapKeys {α : Type} (m : List (String × α)) : List String :=
  m.map Prod.fst

/-- A JSON value as used by this API: payloads carry strings, numbers,
booleans, null, or flat objects of numeric fields (the `metrics` shape). -/
inductive JVal where
  | jstr (s : String)
  | jnum (q : ℚ)
  | jbool (b : Bool)
  | jnull
  | jobj (fields : List (String × ℚ))
deriving DecidableEq

/-- JS truthiness of a value ( `undefined` is handled by `Option`). -/
def JVal.truthy : JVal → Bool
  | jstr s => !(s = "")
  | jnum q => !(q = 0)
  | jbool b => b
  | jnull => false
  | jobj _ => true

/-- Truthiness of a possibly-absent field. -/
def otruthy : Option JVal → Bool
  | none => false
  | some v => v.truthy

/-- JS `typeof v === "string"` for a possibly-absent field. -/
def oIsString : Option JVal → Bool
  | some (JVal.jstr _) => true
  | _ => false

/-- JS `typeof v === "object"` for a possibly-absent field (`null` included). -/
def oIsObject : Option JVal → Bool
  | some (JVal.jobj _) => true
  | some JVal.jnull => true
  | _ => false

/-- An entry of the backend device registry (`server.js`). -/
structure Device where
  id : String
  name : String
  ip : String
  status : JVal
  lastSeen : Nat
deriving DecidableEq

/-- One seeded device:
`id = dev-<letter><suffix>`, `name = IoT Node <Letter><suffix>`,
`ip = 192.168.1.<100+i>` (server.js lines 40-46). -/
def seedDevice (now i : Nat) : Device :=
  { id := "dev-" ++ String.singleton (Char.ofNat (97 + i % 26))
          ++ (if 25 < i then toString i else "")
  , name := "IoT Node " ++ String.singleton (Char.ofNat (65 + i % 26))
          ++ (if 25 < i then toString i else "")
  , ip := "192.168.1." ++ toString (100 + i)
  , status := JVal.jstr "online"
  , lastSeen := now }

/-- The initial registry of 60 devices. -/
def initialDevices (now : Nat) : List Device :=
  (List.range 60).map (seedDevice now)

/-- The device added by the population churn when `devices.length < 80`
(`server.js` lines 55-62); `len` is the registry length at add time. -/
def dynDevice (len now : Nat) : Device :=
  { id := "dev-dyn-" ++ toString (len + 100)
  , name := "IoT Node D-" ++ toString (len + 100)
  , ip := "192.168.2." ++ toString ((len + 100) % 254)
  , status := JVal.jstr "online"
  , lastSeen := now }

/-- The "add" branch of the population churn tick (`server.js` lines 54-68). -/
def addStep (devs : List Device) (now : Nat) : List Device :=
  if devs.length < 80 then devs ++ [dynDevice devs.length now] else devs

/-- The fixed stage pipeline (`server.js` line 210). -/
def STAGE_IDS : List String := ["AUTH", "ENCRYPT", "DECRYPT", "HASH"]

/-- An in-flight transaction (`server.js` lines 230-236). -/
structure Tx where
  deviceId : String
  deviceName : String
  deviceIp : String
  stageIndex : Nat
  ticksInStage : Nat
deriving DecidableEq

/-- The transaction created for a freshly selected idle device. -/
def newTransaction (d : Device) : Tx :=
  { deviceId := d.id, deviceName := d.name, deviceIp := d.ip
  , stageIndex := 0, ticksInStage := 0 }

/-- Randomized per-stage dwell (`server.js` lines 249-254): AUTH 0-1 extra
ticks, ENCRYPT 1-2, DECRYPT 1-3, HASH 0; `stageDurations[id] || 0` for
anything else. `r` is the raw random draw. -/
def stageDuration (stageId : String) (r : Nat) : Nat :=
  if stageId = "AUTH" then r % 2
  else if stageId = "ENCRYPT" then r % 2 + 1
  else if stageId = "DECRYPT" then r % 3 + 1
  else 0

/-- One engine tick applied to a single transaction (`server.js` lines
242-326): decrement the dwell or, when it is zero, draw a fresh dwell for
the current stage; emit a telemetry event carrying the current stage id and
`isLastStage`; finally advance the stage (or delete the transaction at
HASH) exactly when the dwell is zero after the update.  Returns the emitted
`(stageId, isLastStage)` pair and the surviving transaction, if any. -/
def txStep (tx : Tx) (r : Nat) : (String × Bool) × Option Tx :=
  let tx1 :=
    if 0 < tx.ticksInStage then { tx with ticksInStage := tx.ticksInStage - 1 }
    else { tx with ticksInStage := stageDuration (STAGE_IDS.getD tx.stageIndex "") r }
  let ev := (STAGE_IDS.getD tx1.stageIndex "", tx1.stageIndex == STAGE_IDS.length - 1)
  if tx1.ticksInStage = 0 then
    if tx1.stageIndex = STAGE_IDS.length - 1 then (ev, none)
    else (ev, some { tx1 with stageIndex := tx1.stageIndex + 1 })
  else (ev, some tx1)

/-- The per-transaction telemetry event sequence: iterate `txStep` from tick
`t`, drawing the dwell randomness `rho t` at each tick, until the
transaction is deleted (or the fuel runs out, which for fuel 16 never
happens: total life is at most 10 ticks). -/
def txTrace (fuel : Nat) (tx : Tx) (rho : Nat → Nat) (t : Nat) : List (String × Bool) :=
  match fuel with
  | 0 => []
  | fuel + 1 =>
    match txStep tx (rho t) with
    | (ev, none) => [ev]
    | (ev, some tx') => ev :: txTrace fuel tx' rho (t + 1)

/-- A transaction as just created for device `d`. -/
def freshTx (d : Device) : Tx := newTransaction d

/-- One iteration of the creation loop (`server.js` lines 224-237): filter
the devices whose address is not a key of the transaction map, pick one at
random, and register a fresh transaction under its address. -/
def createOne (devs : List Device) (txs : List (String × Tx)) (r : Nat) :
    List (String × Tx) :=
  let available := devs.filter (fun d => !(mapHasKey txs d.ip))
  match available[r % available.length]? with
  | some d => mapSet txs d.ip (newTransaction d)
  | none => txs

/-- The creation loop, run `n` times; `picks n` is the random draw of the
iteration (`server.js` lines 223-238). -/
def createLoop (devs : List Device) (txs : List (String × Tx)) (picks : Nat → Nat) :
    Nat → List (String × Tx)
  | 0 => txs
  | n + 1 => createLoop devs (createOne devs txs (picks n)) picks n

/-- The creation phase of an engine tick (`server.js` lines 219-239): when
fewer than 80% of the devices are active (`activeIps.length <
devices.length * 0.8`, an exact comparison at these magnitudes, written here
over integers), start `floor(random*3)+1` transactions. -/
def tickCreate (devs : List Device) (txs : List (String × Tx))
    (cnt : Nat) (picks : Nat → Nat) : List (String × Tx) :=
  if 5 * txs.length < 4 * devs.length then createLoop devs txs picks (cnt % 3 + 1)
  else txs

/-- The progress phase of an engine tick (`server.js` lines 242-326): every
transaction in the map takes one `txStep`; a transaction finishing HASH is
deleted.  The oracle is re-indexed entry by entry. -/
def progressAll : List (String × Tx) → (Nat → Nat) → List (String × Tx)
  | [], _ => []
  | (ip, tx) :: rest, rho =>
    match (txStep tx (rho 0)).2 with
    | some tx' => (ip, tx') :: progressAll rest (fun n => rho (n + 1))
    | none => progressAll rest (fun n => rho (n + 1))

/-- One full engine tick: creation followed by progress. -/
def serverTick (devs : List Device) (txs : List (String × Tx))
    (cnt : Nat) (picks rho : Nat → Nat) : List (String × Tx) :=
  progressAll (tickCreate devs txs cnt picks) rho

/-- The "remove" branch of the population churn tick (`server.js` lines
69-80): when more than 45 devices remain, splice out the device at index
`10 + floor(random*(length-10))` (the first 10 core nodes are protected)
and delete any active transaction keyed by its address. -/
def removeStep (devs : List Device) (txs : List (String × Tx)) (r : Nat) :
    List Device × List (String × Tx) :=
  if 45 < devs.length then
    let index := 10 + r % (devs.length - 10)
    match devs[index]? with
    | some removed => (devs.eraseIdx index, mapDelete txs removed.ip)
    | none => (devs, txs)
  else (devs, txs)

/-- A transaction of the mock lifecycle server (`src/mock-ws-server.js`
lines 70-84). -/
structure MockTx where
  deviceId : String
  deviceName : String
  deviceIp : String
  stageIndex : Nat
  lastUpdate : Nat
deriving DecidableEq

/-- One interval tick of the mock server (`src/mock-ws-server.js` lines
61-108): pick a random device; if its address has no transaction in the
map, create one at stage 0, otherwise advance the existing one; emit the
current stage; delete the transaction once the final stage is reached. -/
def mockTick (devs : List Device) (txs : List (String × MockTx))
    (pick now : Nat) : List (String × MockTx) × Option (String × Bool) :=
  match devs[pick % devs.length]? with
  | none => (txs, none)
  | some d =>
    let tx : MockTx :=
      match mapLookup txs d.ip with
      | none =>
        { deviceId := d.id, deviceName := d.name, deviceIp := d.ip
        , stageIndex := 0, lastUpdate := now }
      | some t => { t with stageIndex := t.stageIndex + 1, lastUpdate := now }
    let txs1 := mapSet txs d.ip tx
    let ev := (STAGE_IDS.getD tx.stageIndex "", tx.stageIndex == STAGE_IDS.length - 1)
    (if STAGE_IDS.length - 1 ≤ tx.stageIndex then mapDelete txs1 d.ip else txs1,
     some ev)

/-! ### Resilient client connection machine (`DeviceTopology.vue`) -/

/-- WebSocket ready states. -/
inductive RS where
  | connecting
  | opened
  | closing
  | closed
deriving DecidableEq

/-- The module-scoped client connection state of `DeviceTopology.vue`:
`socket` (with its ready state), the pending reconnect timer and its
computed delay, `reconnectAttempts`, the page-hidden flag, and `isDisposed`. -/
structure ClientState where
  socket : Option RS
  reconnectTimerSet : Bool
  reconnectDelayMs : Nat
  reconnectAttempts : Nat
  hidden : Bool
  disposed : Bool
deriving DecidableEq

/-- The reconnect delay (`DeviceTopology.vue` lines 239-241):
`min(1000 * 2^attempts, 30000) + floor(random*250)`; `jitter % 250` models
the draw. -/
def reconnectDelay (attempts jitter : Nat) : Nat :=
  min (1000 * 2 ^ attempts) 30000 + jitter % 250

/-- The `scheduleReconnect` routine (`DeviceTopology.vue` lines 236-246): bail out when
disposed; clear any pending timer and arm a new one with the backoff delay
for the current attempt count. -/
def scheduleReconnect (s : ClientState) (jitter : Nat) : ClientState :=
  if s.disposed then s
  else { s with reconnectTimerSet := true,
                reconnectDelayMs := reconnectDelay s.reconnectAttempts jitter }

/-- The `startDataListener` routine (`DeviceTopology.vue` lines 248-291): bail out when
disposed; close any existing socket and open a fresh one (state
`connecting`). -/
def startDataListener (s : ClientState) : ClientState :=
  if s.disposed then s else { s with socket := some RS.connecting }

/-- The asynchronous events the connection state machine reacts to. -/
inductive CEvent where
  | openEvt
  | closeEvt
  | errorEvt
  | timerFire
  | docHidden
  | docVisible
deriving DecidableEq

/-- One step of the client connection machine; `jitter` is the random draw
consumed if a reconnect is scheduled during the step.
* `openEvt`   — `socket.onopen`: reset `reconnectAttempts` to 0 (lines 259-263).
* `closeEvt`  — `socket.onclose`: unless disposed, schedule a reconnect
  (lines 279-284); note there is no `document.hidden` guard.
* `errorEvt`  — `socket.onerror`: only emits a status (lines 274-277).
* `timerFire` — the reconnect timer callback: increment the attempt count
  and call `startDataListener` (lines 242-245).
* `docHidden`/`docVisible` — `handleVisibilityChange` (lines 950-958):
  hidden closes the socket; visible with no live socket reconnects at once. -/
def clientStep (s : ClientState) (e : CEvent) (jitter : Nat) : ClientState :=
  match e with
  | CEvent.openEvt =>
    { s with reconnectAttempts := 0, socket := s.socket.map (fun _ => RS.opened) }
  | CEvent.closeEvt =>
    let s1 := { s with socket := s.socket.map (fun _ => RS.closed) }
    if s1.disposed then s1 else scheduleReconnect s1 jitter
  | CEvent.errorEvt => s
  | CEvent.timerFire =>
    startDataListener
      { s with reconnectTimerSet := false,
               reconnectAttempts := s.reconnectAttempts + 1 }
  | CEvent.docHidden =>
    let s1 := { s with hidden := true }
    match s1.socket with
    | some rs => if rs = RS.closed then s1 else { s1 with socket := some RS.closing }
    | none => s1
  | CEvent.docVisible =>
    let s1 := { s with hidden := false }
    match s1.socket with
    | none => startDataListener s1
    | some rs => if rs = RS.closed then startDataListener s1 else s1

/-! ### Activity tracker (`DeviceTopology.vue` handleIncomingPacket) -/

/-- A topology node as kept in `nodes.value`. -/
structure TopoNode where
  name : String
  value : String
  stageId : String
  isBlinking : Bool
  throughput : ℚ
deriving DecidableEq

/-- JS `l.includes(sub)` on character lists (`String.prototype.includes`). -/
def containsSubList : List Char → List Char → Bool
  | l, sub =>
    sub.isPrefixOf l ||
      match l with
      | [] => false
      | _ :: t => containsSubList t sub

/-- An inbound telemetry packet, reduced to the fields
`handleIncomingPacket` reads.  `source`, `type` and `stageId` are absent or
strings (a non-string value fails the respective guards just as absence
does); `throughput` stands for `packet.metrics?.throughput`. -/
structure Packet where
  source : Option String
  ptype : Option String
  stageId : Option String
  throughput : Option ℚ
  isLastStage : Bool
deriving DecidableEq

/-- The node-lookup predicate
`n.value === packet.source || n.value.includes(packet.source)` (line 195). -/
def matchesSource (n : TopoNode) (src : String) : Bool :=
  n.value == src || containsSubList n.value.data src.data

/-- The `nodes.value.find(...)` lookup (line 195). -/
def findTarget (nodes : List TopoNode) (src : String) : Option TopoNode :=
  nodes.find? (fun n => matchesSource n src)

/-- Update the first element satisfying `pred` (JS mutates the object that
`find` returned, which is the first match). -/
def updateFirst {α : Type} : List α → (α → Bool) → (α → α) → List α
  | [], _, _ => []
  | x :: rest, pred, f =>
    if pred x then f x :: rest else x :: updateFirst rest pred f

/-- The node mutation of lines 199-212: adopt a truthy string `stageId`,
adopt a truthy `metrics.throughput`, and set `isBlinking`. -/
def applyPacket (p : Packet) (n : TopoNode) : TopoNode :=
  { n with
    stageId :=
      match p.stageId with
      | some st => if st = "" then n.stageId else st
      | none => n.stageId
  , throughput :=
      match p.throughput with
      | some tp => if tp = 0 then n.throughput else tp
      | none => n.throughput
  , isBlinking := true }

/-- The activity-tracker state: the nodes, the per-name timer-id map
`blinkTimeouts`, the multiset of outstanding (armed, neither cancelled nor
fired) decay timers as `(id, node name, delay)` triples, the next timer id
the host will hand out (`window.setTimeout` ids are positive), and
`isDisposed`. -/
structure TrackerState where
  nodes : List TopoNode
  blinkTimeouts : List (String × Nat)
  pending : List (Nat × String × Nat)
  nextId : Nat
  disposed : Bool
deriving DecidableEq

/-- Lines 221-232: fetch the recorded timer id for the entity, cancel it if
truthy, arm a fresh timer for `delay` ms and record its id. -/
def armDecay (s : TrackerState) (name : String) (delay : Nat) : TrackerState :=
  let pending1 :=
    match mapLookup s.blinkTimeouts name with
    | some tid => if tid = 0 then s.pending else s.pending.filter (fun e => !(e.1 = tid))
    | none => s.pending
  { s with blinkTimeouts := mapSet s.blinkTimeouts name s.nextId,
           pending := pending1 ++ [(s.nextId, name, delay)],
           nextId := s.nextId + 1 }

/-- The `handleIncomingPacket` handler (lines 186-234), without the render scheduling
(modelled separately by `scheduleRender` below): guard on `isDisposed`, a
truthy `source` and the join/exit message types; find the target node,
apply the packet to it, and (re)arm its decay timer for 3000 ms when
`isLastStage` is truthy and 1100 ms otherwise. -/
def handleIncomingPacket (s : TrackerState) (p : Packet) : TrackerState :=
  if s.disposed then s
  else
    match p.source with
    | none => s
    | some src =>
      if src = "" then s
      else if p.ptype = some "device_join" then s
      else if p.ptype = some "device_exit" then s
      else
        match findTarget s.nodes src with
        | none => s
        | some target =>
          let s1 := { s with nodes := updateFirst s.nodes (fun n => matchesSource n src) (applyPacket p) }
          armDecay s1 target.name (if p.isLastStage then 3000 else 1100)

/-- The decay-timer callback (lines 224-231) for timer id `tid`: it can run
only while the timer is outstanding; it consumes the timer, and unless
disposed it clears the node's blink flag, zeroes its throughput and deletes
the entity's timer-map entry. -/
def fireDecay (s : TrackerState) (tid : Nat) : TrackerState :=
  match s.pending.find? (fun e => e.1 = tid) with
  | none => s
  | some entry =>
    let s1 := { s with pending := s.pending.filter (fun e => !(e.1 = tid)) }
    if s1.disposed then s1
    else
      { s1 with
        nodes := updateFirst s1.nodes (fun n => n.name = entry.2.1)
          (fun n => { n with isBlinking := false, throughput := 0 })
      , blinkTimeouts := mapDelete s1.blinkTimeouts entry.2.1 }

/-- The single-flight discipline of the decay timers: outstanding timers
have pairwise distinct entity names (at most one per entity), every
outstanding timer is the one recorded in `blinkTimeouts` for its entity,
and all handed-out ids are positive and below the allocator. -/
def timerInv (s : TrackerState) : Prop :=
  (s.pending.map (fun e => e.2.1)).Nodup ∧
  (∀ e ∈ s.pending, mapLookup s.blinkTimeouts e.2.1 = some e.1) ∧
  (∀ e ∈ s.pending, 1 ≤ e.1 ∧ e.1 < s.nextId) ∧
  (∀ kv ∈ s.blinkTimeouts, 1 ≤ kv.2 ∧ kv.2 < s.nextId) ∧
  1 ≤ s.nextId

instance (s : TrackerState) : Decidable (timerInv s) := by
  unfold timerInv; infer_instance

/-! ### Render coalescer (`DeviceTopology.vue` scheduleRender) -/

/-- The render-coalescer state: whether `chartInstance` and `optionBuilder`
are non-null, the `renderQueued` flag, `isDisposed`, and a count of actual
redraws (`chartInstance.setOption` calls). A `requestAnimationFrame`
callback is registered exactly while `renderQueued` is set. -/
structure RenderState where
  chartAlive : Bool
  builderAlive : Bool
  renderQueued : Bool
  disposed : Bool
  renders : Nat
deriving DecidableEq

/-- The `scheduleRender` coalescer (lines 172-184): bail out when the chart or builder is
gone, a render is already queued, or the component is disposed; otherwise
set `renderQueued` and register the frame callback. -/
def scheduleRender (s : RenderState) : RenderState :=
  if !s.chartAlive || !s.builderAlive || s.renderQueued || s.disposed then s
  else { s with renderQueued := true }

/-- The animation-frame boundary: if a callback was registered it clears
`renderQueued` and, unless disposed or the chart is gone, performs exactly
one redraw (lines 175-183); with no callback registered nothing runs. -/
def frameFire (s : RenderState) : RenderState :=
  if s.renderQueued then
    let s1 := { s with renderQueued := false }
    if s1.disposed || !s1.chartAlive then s1
    else { s1 with renders := s1.renders + 1 }
  else s

/-! ### REST telemetry endpoint (`server.js` POST /api/telemetry) -/

/-- The request body `{deviceId, status?, metrics?}`; each field is an
arbitrary JSON value or absent. -/
structure PostPayload where
  deviceId : Option JVal
  status : Option JVal
  metrics : Option JVal
deriving DecidableEq

/-- The server state the endpoint can read or mutate. -/
structure SState where
  devices : List Device
  latestMetrics : List (String × ℚ)
deriving DecidableEq

/-- The HTTP outcome of the endpoint. -/
inductive PostResp where
  | ok
  | badRequest (msg : String)
  | notFound (msg : String)
deriving DecidableEq

/-- A broadcast fan-out message `{type:"telemetry", ts, ...payload}`. -/
structure BMsg where
  ts : Nat
  payload : PostPayload
deriving DecidableEq

/-- JS object spread `{...base, ...patch}` on flat numeric objects. -/
def mergeObj (base patch : List (String × ℚ)) : List (String × ℚ) :=
  base.map (fun kv => (kv.1, (mapLookup patch kv.1).getD kv.2)) ++
    patch.filter (fun kv => !(mapHasKey base kv.1))

/-- The fields of an object value (empty for non-objects). -/
def jfields : Option JVal → List (String × ℚ)
  | some (JVal.jobj m) => m
  | _ => []

/-- The fallback `payload.status || "online"` (line 153). -/
def statusVal : Option JVal → JVal
  | some v => if v.truthy then v else JVal.jstr "online"
  | none => JVal.jstr "online"

/-- The `POST /api/telemetry` handler (`server.js` lines 131-162): 400 when `deviceId`
is falsy or not a string; 400 when `metrics` is truthy and not an object;
404 when no device carries the id; otherwise refresh the device's
`lastSeen` and `status`, merge truthy `metrics` into `latestMetrics`, and
broadcast `{type:"telemetry", ts:now, ...payload}`.  Returns the response,
the new state and the list of emitted broadcasts. -/
def postTelemetry (s : SState) (p : PostPayload) (now : Nat) :
    PostResp × SState × List BMsg :=
  if !(otruthy p.deviceId) || !(oIsString p.deviceId) then
    (PostResp.badRequest "deviceId required", s, [])
  else if otruthy p.metrics && !(oIsObject p.metrics) then
    (PostResp.badRequest "metrics must be object", s, [])
  else
    match p.deviceId with
    | some (JVal.jstr did) =>
      match s.devices.find? (fun d => d.id = did) with
      | none => (PostResp.notFound "device not found", s, [])
      | some _ =>
        let devices1 := updateFirst s.devices (fun d => d.id = did)
          (fun d => { d with lastSeen := now, status := statusVal p.status })
        let metrics1 :=
          if otruthy p.metrics then mergeObj s.latestMetrics (jfields p.metrics)
          else s.latestMetrics
        (PostResp.ok, { devices := devices1, latestMetrics := metrics1 },
         [{ ts := now, payload := p }])
    | _ => (PostResp.badRequest "deviceId required", s, [])

/-- The initial value of `latestMetrics` (`server.js` lines 104-108). -/
def initialMetrics : List (String × ℚ) :=
  [("throughput", 850), ("latency", 6 / 5), ("securityScore", 95)]

/-- A server state at boot time. -/
def c8State : SState :=
  { devices := initialDevices 0, latestMetrics := initialMetrics }

/-- A payload with a valid, registered `deviceId` but a numeric `metrics`
field. -/
def c8Payload : PostPayload :=
  { deviceId := some (JVal.jstr "dev-a"), status := none
  , metrics := some (JVal.jnum 5) }

/-! ### Concrete churn trace used for the registry-uniqueness analysis -/

/-- Boot registry. -/
def c9State0 : List Device := initialDevices 0

/-- After one "add" churn action: 61 devices, the new one at
`192.168.2.160`. -/
def c9State1 : List Device := addStep c9State0 0

/-- After a "remove" churn action with random draw 0: splices out the
seeded device at index 10. -/
def c9State2 : List Device := (removeStep c9State1 [] 0).1

/-- After a second "add": the registry length is back to 60, so the new
device again gets `192.168.2.160`. -/
def c9State3 : List Device := addStep c9State2 0

/-! ## Association-map lemmas -/

theorem mapHasKey_iff_mem {α : Type} (m : List (String × α)) (k : String) :
    mapHasKey m k = true ↔ k ∈ mapKeys m := by
  simp [mapHasKey, mapKeys, List.any_eq_true, List.mem_map]

theorem mapKeys_mapSet {α : Type} (m : List (String × α)) (k : String) (v : α) :
    mapKeys (mapSet m k v) =
      if mapHasKey m k then mapKeys m else mapKeys m ++ [k] := by
  induction m with
  | nil => simp [mapSet, mapHasKey, mapKeys]
  | cons p rest ih =>
    obtain ⟨k', v'⟩ := p
    by_cases h : k' = k
    · subst h; simp [mapSet, mapHasKey, mapKeys]
    · rw [show mapSet ((k', v') :: rest) k v = (k', v') :: mapSet rest k v by
          simp [mapSet, h]]
      rw [show mapKeys ((k', v') :: mapSet rest k v)
            = k' :: mapKeys (mapSet rest k v) from rfl]
      rw [ih]
      rw [show mapHasKey ((k', v') :: rest) k = mapHasKey rest k by
          simp [mapHasKey, h]]
      by_cases hrest : mapHasKey rest k
      · simp [hrest, mapKeys]
      · simp [hrest, mapKeys]

theorem mapKeys_nodup_mapSet {α : Type} (m : List (String × α)) (k : String) (v : α)
    (h : (mapKeys m).Nodup) : (mapKeys (mapSet m k v)).Nodup := by
  rw [mapKeys_mapSet]
  by_cases hk : mapHasKey m k
  · simpa [hk] using h
  · have hmem : k ∉ mapKeys m := fun hc => hk ((mapHasKey_iff_mem m k).mpr hc)
    simp [hk, List.nodup_append, h, hmem]

theorem mapLookup_mapSet_self {α : Type} (m : List (String × α)) (k : String) (v : α) :
    mapLookup (mapSet m k v) k = some v := by
  induction m with
  | nil => simp [mapSet, mapLookup]
  | cons p rest ih =>
    obtain ⟨k', v'⟩ := p
    by_cases h : k' = k
    · subst h; simp [mapSet, mapLookup]
    · simp [mapSet, mapLookup, h, ih]

theorem mapLookup_mapSet_ne {α : Type} (m : List (String × α)) (k k' : String) (v : α)
    (h : ¬(k' = k)) : mapLookup (mapSet m k v) k' = mapLookup m k' := by
  have h' : ¬(k = k') := fun hc => h hc.symm
  induction m with
  | nil => simp [mapSet, mapLookup, h']
  | cons p rest ih =>
    obtain ⟨k0, v0⟩ := p
    by_cases h0 : k0 = k
    · subst h0; simp [mapSet, mapLookup, h']
    · by_cases h1 : k0 = k'
      · subst h1; simp [mapSet, mapLookup, h0]
      · simp [mapSet, mapLookup, h0, h1, ih]

theorem mapLookup_eq_none_of_not_has {α : Type} (m : List (String × α)) (k : String)
    (h : mapHasKey m k = false) : mapLookup m k = none := by
  induction m with
  | nil => simp [mapLookup]
  | cons p rest ih =>
    obtain ⟨k', v'⟩ := p
    simp only [mapHasKey, List.any_cons, Bool.or_eq_false_iff] at h
    have hne : ¬(k' = k) := by simpa using h.1
    simp [mapLookup, hne, ih (by simpa [mapHasKey] using h.2)]

theorem mapLookup_mem {α : Type} (m : List (String × α)) (k : String) (v : α)
    (h : mapLookup m k = some v) : (k, v) ∈ m := by
  induction m with
  | nil => simp [mapLookup] at h
  | cons p rest ih =>
    obtain ⟨k', v'⟩ := p
    by_cases hk : k' = k
    · subst hk
      simp [mapLookup] at h
      simp [h]
    · simp only [mapLookup, if_neg hk] at h
      exact List.mem_cons_of_mem _ (ih h)

theorem mem_mapSet {α : Type} (m : List (String × α)) (k : String) (v : α)
    (p : String × α) (h : p ∈ mapSet m k v) : p = (k, v) ∨ p ∈ m := by
  induction m with
  | nil => simpa [mapSet] using h
  | cons q rest ih =>
    obtain ⟨k', v'⟩ := q
    by_cases hk : k' = k
    · subst hk
      simp only [mapSet, if_pos rfl] at h
      rcases List.mem_cons.mp h with h | h
      · exact Or.inl h
      · exact Or.inr (List.mem_cons_of_mem _ h)
    · simp only [mapSet, if_neg hk] at h
      rcases List.mem_cons.mp h with h | h
      · exact Or.inr (by simp [h])
      · rcases ih h with h | h
        · exact Or.inl h
        · exact Or.inr (List.mem_cons_of_mem _ h)

theorem mapDelete_hasKey_self {α : Type} (m : List (String × α)) (k : String) :
    mapHasKey (mapDelete m k) k = false := by
  simp only [mapHasKey, mapDelete, List.any_eq_false]
  intro p hp
  have := List.of_mem_filter hp
  simpa using this

theorem mapDelete_keys_sublist {α : Type} (m : List (String × α)) (k : String) :
    (mapKeys (mapDelete m k)).Sublist (mapKeys m) :=
  List.Sublist.map Prod.fst (List.filter_sublist m)

theorem mapDelete_lookup_ne {α : Type} (m : List (String × α)) (k k' : String)
    (h : ¬(k' = k)) : mapLookup (mapDelete m k) k' = mapLookup m k' := by
  induction m with
  | nil => simp [mapDelete, mapLookup]
  | cons p rest ih =>
    obtain ⟨k0, v0⟩ := p
    by_cases h0 : k0 = k
    · subst h0
      have hne : ¬(k0 = k') := fun hc => h hc.symm
      rw [show mapDelete ((k0, v0) :: rest) k0 = mapDelete rest k0 by
          simp [mapDelete]]
      rw [show mapLookup ((k0, v0) :: rest) k' = mapLookup rest k' by
          simp [mapLookup, hne]]
      exact ih
    · rw [show mapDelete ((k0, v0) :: rest) k = (k0, v0) :: mapDelete rest k by
          simp [mapDelete, h0]]
      by_cases h1 : k0 = k'
      · subst h1; simp [mapLookup]
      · simp [mapLookup, h1, ih]

theorem mapDelete_lookup_self {α : Type} (m : List (String × α)) (k : String) :
    mapLookup (mapDelete m k) k = none :=
  mapLookup_eq_none_of_not_has _ _ (mapDelete_hasKey_self m k)

theorem mem_mapDelete {α : Type} (m : List (String × α)) (k : String)
    (p : String × α) (h : p ∈ mapDelete m k) : p ∈ m :=
  List.mem_of_mem_filter h

/-! ## Transaction lifecycle (C1) -/

theorem txTrace_drain (did dn dip : String) (si : Nat) (hsi : si < 3) :
    ∀ (j g t : Nat) (rho : Nat → Nat),
      txTrace (j + 1 + g) ⟨did, dn, dip, si, j + 1⟩ rho t =
        List.replicate (j + 1) (STAGE_IDS.getD si "", false) ++
          txTrace g ⟨did, dn, dip, si + 1, 0⟩ rho (t + (j + 1)) := by
  have hne : ¬(si = STAGE_IDS.length - 1) := by
    intro h; rw [show STAGE_IDS.length - 1 = 3 from rfl] at h; omega
  have hne2 : (si == STAGE_IDS.length - 1) = false := by
    rw [show STAGE_IDS.length - 1 = 3 from rfl]
    rw [show STAGE_IDS.length - 1 = 3 from rfl] at hne
    simpa using hne
  intro j
  induction j with
  | zero =>
    intro g t rho
    rw [show (0 + 1 + g : Nat) = g + 1 from by omega]
    simp [txTrace, txStep, hne, hne2]
  | succ j ih =>
    intro g t rho
    rw [show (j + 1 + 1 + g : Nat) = (j + 1 + g) + 1 from by omega]
    rw [show (t + (j + 1 + 1) : Nat) = (t + 1) + (j + 1) from by omega]
    rw [show txTrace (j + 1 + g + 1) ⟨did, dn, dip, si, j + 1 + 1⟩ rho t =
          (STAGE_IDS.getD si "", false) ::
            txTrace (j + 1 + g) ⟨did, dn, dip, si, j + 1⟩ rho (t + 1) from by
        simp [txTrace, txStep, hne, hne2]]
    rw [ih g (t + 1) rho]
    simp [List.replicate_succ]

theorem txTrace_fresh (did dn dip : String) (si : Nat) (hsi : si < 3)
    (g t : Nat) (rho : Nat → Nat) :
    txTrace (stageDuration (STAGE_IDS.getD si "") (rho t) + 1 + g)
        ⟨did, dn, dip, si, 0⟩ rho t =
      List.replicate (stageDuration (STAGE_IDS.getD si "") (rho t) + 1)
          (STAGE_IDS.getD si "", false) ++
        txTrace g ⟨did, dn, dip, si + 1, 0⟩ rho
          (t + (stageDuration (STAGE_IDS.getD si "") (rho t) + 1)) := by
  have hne : ¬(si = STAGE_IDS.length - 1) := by
    intro h; rw [show STAGE_IDS.length - 1 = 3 from rfl] at h; omega
  have hne2 : (si == STAGE_IDS.length - 1) = false := by
    rw [show STAGE_IDS.length - 1 = 3 from rfl]
    rw [show STAGE_IDS.length - 1 = 3 from rfl] at hne
    simpa using hne
  cases hd : stageDuration (STAGE_IDS.getD si "") (rho t) with
  | zero =>
    rw [show (0 + 1 + g : Nat) = g + 1 from by omega]
    have hd' : stageDuration (STAGE_IDS[si]?.getD "") (rho t) = 0 := by
      simpa [List.getD] using hd
    simp [txTrace, txStep, hd', hne, hne2]
  | succ j =>
    have hd' : stageDuration (STAGE_IDS[si]?.getD "") (rho t) = j + 1 := by
      simpa [List.getD] using hd
    rw [show (j + 1 + 1 + g : Nat) = (j + 1 + g) + 1 from by omega]
    rw [show (t + (j + 1 + 1) : Nat) = (t + 1) + (j + 1) from by omega]
    rw [show txTrace (j + 1 + g + 1) ⟨did, dn, dip, si, 0⟩ rho t =
          (STAGE_IDS.getD si "", false) ::
            txTrace (j + 1 + g) ⟨did, dn, dip, si, j + 1⟩ rho (t + 1) from by
        simp [txTrace, txStep, hd', hne, hne2]]
    rw [txTrace_drain did dn dip si hsi j g (t + 1) rho]
    simp [List.replicate_succ]

theorem txTrace_hash (did dn dip : String) (g t : Nat) (rho : Nat → Nat) :
    txTrace (g + 1) ⟨did, dn, dip, 3, 0⟩ rho t = [("HASH", true)] := by
  simp [txTrace, txStep, stageDuration, STAGE_IDS]

/-- C1 (amended): for every transaction created by the engine (any device
fields, any randomness) the emitted event sequence is a block of AUTH
events (1-2 of them), then ENCRYPT (2-3), then DECRYPT (2-4), then exactly
one HASH event; stages never skip and never go backwards, and the final
event — and only it — carries `isLastStage = true`.  Stages do repeat
within a block because the engine broadcasts on every tick of a stage's
dwell, not only on dwell expiry. -/
theorem c1_stage_sequence_amended (did dn dip : String) (rho : Nat → Nat) :
    ∃ a b c : Nat,
      1 ≤ a ∧ a ≤ 2 ∧ 2 ≤ b ∧ b ≤ 3 ∧ 2 ≤ c ∧ c ≤ 4 ∧
      txTrace 16 ⟨did, dn, dip, 0, 0⟩ rho 0 =
        List.replicate a ("AUTH", false) ++ List.replicate b ("ENCRYPT", false) ++
          List.replicate c ("DECRYPT", false) ++ [("HASH", true)] := by
  have e0 : STAGE_IDS.getD 0 "" = "AUTH" := rfl
  have e1 : STAGE_IDS.getD 1 "" = "ENCRYPT" := rfl
  have e2 : STAGE_IDS.getD 2 "" = "DECRYPT" := rfl
  have hb0 : stageDuration (STAGE_IDS.getD 0 "") (rho 0) ≤ 1 := by
    rw [e0, show stageDuration "AUTH" (rho 0) = rho 0 % 2 from rfl]; omega
  rw [show (16 : Nat) = stageDuration (STAGE_IDS.getD 0 "") (rho 0) + 1 +
        (15 - stageDuration (STAGE_IDS.getD 0 "") (rho 0)) from by omega]
  rw [txTrace_fresh did dn dip 0 (by omega)
    (15 - stageDuration (STAGE_IDS.getD 0 "") (rho 0)) 0 rho]
  rw [show ((0 : Nat) + 1) = 1 from rfl]
  generalize ht1 : (0 : Nat) + (stageDuration (STAGE_IDS.getD 0 "") (rho 0) + 1) = t1
  have hb1 : 1 ≤ stageDuration (STAGE_IDS.getD 1 "") (rho t1) ∧
      stageDuration (STAGE_IDS.getD 1 "") (rho t1) ≤ 2 := by
    rw [e1, show stageDuration "ENCRYPT" (rho t1) = rho t1 % 2 + 1 from rfl]
    omega
  rw [show (15 - stageDuration (STAGE_IDS.getD 0 "") (rho 0) : Nat) =
        stageDuration (STAGE_IDS.getD 1 "") (rho t1) + 1 +
          (14 - stageDuration (STAGE_IDS.getD 0 "") (rho 0) -
            stageDuration (STAGE_IDS.getD 1 "") (rho t1)) from by omega]
  rw [txTrace_fresh did dn dip 1 (by omega)
    (14 - stageDuration (STAGE_IDS.getD 0 "") (rho 0) -
      stageDuration (STAGE_IDS.getD 1 "") (rho t1)) t1 rho]
  rw [show ((1 : Nat) + 1) = 2 from rfl]
  generalize ht2 : t1 + (stageDuration (STAGE_IDS.getD 1 "") (rho t1) + 1) = t2
  have hb2 : 1 ≤ stageDuration (STAGE_IDS.getD 2 "") (rho t2) ∧
      stageDuration (STAGE_IDS.getD 2 "") (rho t2) ≤ 3 := by
    rw [e2, show stageDuration "DECRYPT" (rho t2) = rho t2 % 3 + 1 from rfl]
    omega
  rw [show (14 - stageDuration (STAGE_IDS.getD 0 "") (rho 0) -
        stageDuration (STAGE_IDS.getD 1 "") (rho t1) : Nat) =
        stageDuration (STAGE_IDS.getD 2 "") (rho t2) + 1 +
          (13 - stageDuration (STAGE_IDS.getD 0 "") (rho 0) -
            stageDuration (STAGE_IDS.getD 1 "") (rho t1) -
            stageDuration (STAGE_IDS.getD 2 "") (rho t2)) from by omega]
  rw [txTrace_fresh did dn dip 2 (by omega)
    (13 - stageDuration (STAGE_IDS.getD 0 "") (rho 0) -
      stageDuration (STAGE_IDS.getD 1 "") (rho t1) -
      stageDuration (STAGE_IDS.getD 2 "") (rho t2)) t2 rho]
  rw [show ((2 : Nat) + 1) = 3 from rfl]
  generalize ht3 : t2 + (stageDuration (STAGE_IDS.getD 2 "") (rho t2) + 1) = t3
  rw [show (13 - stageDuration (STAGE_IDS.getD 0 "") (rho 0) -
        stageDuration (STAGE_IDS.getD 1 "") (rho t1) -
        stageDuration (STAGE_IDS.getD 2 "") (rho t2) : Nat) =
        (12 - stageDuration (STAGE_IDS.getD 0 "") (rho 0) -
          stageDuration (STAGE_IDS.getD 1 "") (rho t1) -
          stageDuration (STAGE_IDS.getD 2 "") (rho t2)) + 1 from by omega]
  rw [txTrace_hash did dn dip
    (12 - stageDuration (STAGE_IDS.getD 0 "") (rho 0) -
      stageDuration (STAGE_IDS.getD 1 "") (rho t1) -
      stageDuration (STAGE_IDS.getD 2 "") (rho t2)) t3 rho]
  refine ⟨stageDuration (STAGE_IDS.getD 0 "") (rho 0) + 1,
    stageDuration (STAGE_IDS.getD 1 "") (rho t1) + 1,
    stageDuration (STAGE_IDS.getD 2 "") (rho t2) + 1,
    by omega, by omega, by omega, by omega, by omega, by omega, ?_⟩
  rw [e0, e1, e2]
  simp [List.append_assoc]

/-- C1 counterexample: with the all-zero randomness the trace of a fresh
transaction is AUTH, ENCRYPT, ENCRYPT, DECRYPT, DECRYPT, HASH — not the
repeat-free `AUTH, ENCRYPT, DECRYPT, HASH` the claim asserts (ENCRYPT and
DECRYPT always dwell at least one extra tick and are re-broadcast). -/
theorem c1_stage_sequence_counterexample :
    (txTrace 16 ⟨"dev-a", "IoT Node A", "192.168.1.100", 0, 0⟩ (fun _ => 0) 0).map
        Prod.fst ≠ ["AUTH", "ENCRYPT", "DECRYPT", "HASH"] := by
  decide

/-! ## Engine tick: at most one transaction per address (C2) -/

theorem createOne_nodup (devs : List Device) (txs : List (String × Tx)) (r : Nat)
    (h : (mapKeys txs).Nodup) : (mapKeys (createOne devs txs r)).Nodup := by
  cases hget : (devs.filter (fun d => !(mapHasKey txs d.ip)))[r %
      (devs.filter (fun d => !(mapHasKey txs d.ip))).length]? with
  | none => simp only [createOne, hget]; exact h
  | some d => simp only [createOne, hget]; exact mapKeys_nodup_mapSet _ _ _ h

theorem createOne_mono (devs : List Device) (txs : List (String × Tx)) (r : Nat)
    (k : String) (v : Tx) (h : mapLookup txs k = some v) :
    mapLookup (createOne devs txs r) k = some v := by
  cases hget : (devs.filter (fun d => !(mapHasKey txs d.ip)))[r %
      (devs.filter (fun d => !(mapHasKey txs d.ip))).length]? with
  | none => simp only [createOne, hget]; exact h
  | some d =>
    simp only [createOne, hget]
    have hd := List.getElem?_mem hget
    have hnk : mapHasKey txs d.ip = false := by
      have := List.of_mem_filter hd
      simpa using this
    have hne : ¬(k = d.ip) := by
      intro hc
      subst hc
      rw [mapLookup_eq_none_of_not_has txs d.ip hnk] at h
      exact Option.noConfusion h
    rw [mapLookup_mapSet_ne _ _ _ _ hne]
    exact h

theorem createOne_new (devs : List Device) (txs : List (String × Tx)) (r : Nat)
    (k : String) (v : Tx) (h : mapLookup (createOne devs txs r) k = some v) :
    mapLookup txs k = some v ∨
      (mapLookup txs k = none ∧ ∃ d ∈ devs, d.ip = k ∧ v = newTransaction d) := by
  cases hget : (devs.filter (fun d => !(mapHasKey txs d.ip)))[r %
      (devs.filter (fun d => !(mapHasKey txs d.ip))).length]? with
  | none => simp only [createOne, hget] at h; exact Or.inl h
  | some d =>
    simp only [createOne, hget] at h
    have hd := List.getElem?_mem hget
    have hdd : d ∈ devs := List.mem_of_mem_filter hd
    have hnk : mapHasKey txs d.ip = false := by
      have := List.of_mem_filter hd
      simpa using this
    by_cases hk : k = d.ip
    · subst hk
      rw [mapLookup_mapSet_self] at h
      refine Or.inr ⟨mapLookup_eq_none_of_not_has txs d.ip hnk, d, hdd, rfl, ?_⟩
      exact (Option.some_injective _ h).symm
    · rw [mapLookup_mapSet_ne _ _ _ _ hk] at h
      exact Or.inl h

theorem createLoop_nodup (devs : List Device) (picks : Nat → Nat) :
    ∀ (n : Nat) (txs : List (String × Tx)), (mapKeys txs).Nodup →
      (mapKeys (createLoop devs txs picks n)).Nodup := by
  intro n
  induction n with
  | zero => intro txs h; exact h
  | succ n ih =>
    intro txs h
    exact ih _ (createOne_nodup devs txs (picks n) h)

theorem createLoop_mono (devs : List Device) (picks : Nat → Nat) :
    ∀ (n : Nat) (txs : List (String × Tx)) (k : String) (v : Tx),
      mapLookup txs k = some v →
      mapLookup (createLoop devs txs picks n) k = some v := by
  intro n
  induction n with
  | zero => intro txs k v h; exact h
  | succ n ih =>
    intro txs k v h
    exact ih _ _ _ (createOne_mono devs txs (picks n) k v h)

theorem createLoop_new (devs : List Device) (picks : Nat → Nat) :
    ∀ (n : Nat) (txs : List (String × Tx)) (k : String) (v : Tx),
      mapLookup (createLoop devs txs picks n) k = some v →
      mapLookup txs k = some v ∨
        (mapLookup txs k = none ∧ ∃ d ∈ devs, d.ip = k ∧ v = newTransaction d) := by
  intro n
  induction n with
  | zero => intro txs k v h; exact Or.inl h
  | succ n ih =>
    intro txs k v h
    rcases ih _ _ _ h with h1 | h1
    · rcases createOne_new devs txs (picks n) k v h1 with h2 | h2
      · exact Or.inl h2
      · exact Or.inr h2
    · obtain ⟨hnone, d, hd, hip, hv⟩ := h1
      cases hlk : mapLookup txs k with
      | none => exact Or.inr ⟨rfl, d, hd, hip, hv⟩
      | some w =>
        have := createOne_mono devs txs (picks n) k w hlk
        rw [this] at hnone
        exact Option.noConfusion hnone

theorem tickCreate_nodup (devs : List Device) (txs : List (String × Tx))
    (cnt : Nat) (picks : Nat → Nat) (h : (mapKeys txs).Nodup) :
    (mapKeys (tickCreate devs txs cnt picks)).Nodup := by
  unfold tickCreate
  by_cases hc : 5 * txs.length < 4 * devs.length
  · rw [if_pos hc]; exact createLoop_nodup devs picks _ txs h
  · rw [if_neg hc]; exact h

theorem tickCreate_new (devs : List Device) (txs : List (String × Tx))
    (cnt : Nat) (picks : Nat → Nat) (k : String) (v : Tx)
    (h : mapLookup (tickCreate devs txs cnt picks) k = some v) :
    mapLookup txs k = some v ∨
      (mapLookup txs k = none ∧ ∃ d ∈ devs, d.ip = k ∧ v = newTransaction d) := by
  unfold tickCreate at h
  by_cases hc : 5 * txs.length < 4 * devs.length
  · rw [if_pos hc] at h; exact createLoop_new devs picks _ txs k v h
  · rw [if_neg hc] at h; exact Or.inl h

theorem progressAll_keys_sublist :
    ∀ (l : List (String × Tx)) (rho : Nat → Nat),
      (mapKeys (progressAll l rho)).Sublist (mapKeys l) := by
  intro l
  induction l with
  | nil => intro rho; simp [progressAll, mapKeys]
  | cons p rest ih =>
    intro rho
    obtain ⟨ip, tx⟩ := p
    cases hstep : (txStep tx (rho 0)).2 with
    | some tx' =>
      rw [show progressAll ((ip, tx) :: rest) rho
            = (ip, tx') :: progressAll rest (fun n => rho (n + 1)) by
          simp [progressAll, hstep]]
      exact List.Sublist.cons₂ ip (ih (fun n => rho (n + 1)))
    | none =>
      rw [show progressAll ((ip, tx) :: rest) rho
            = progressAll rest (fun n => rho (n + 1)) by
          simp [progressAll, hstep]]
      exact List.Sublist.cons ip (ih (fun n => rho (n + 1)))

/-- C2: the engine tick keeps the active-transaction map keyed with
pairwise-distinct addresses (at most one transaction per device address),
every binding after the creation phase is either an untouched old one or a
fresh transaction for a device address that was not in the map before, and
the mock server's per-connection tick obeys the same discipline: it
preserves key distinctness and never replaces an existing transaction with
a fresh one (an address already in the map only ever keeps, advances, or
finishes its transaction). -/
theorem c2_one_transaction_per_address (devs : List Device)
    (txs : List (String × Tx)) (cnt : Nat) (picks rho : Nat → Nat)
    (mtxs : List (String × MockTx)) (pick now : Nat)
    (h : (mapKeys txs).Nodup) (hm : (mapKeys mtxs).Nodup) :
    (mapKeys (serverTick devs txs cnt picks rho)).Nodup ∧
    (∀ k v, mapLookup (tickCreate devs txs cnt picks) k = some v →
      mapLookup txs k = some v ∨
        (mapLookup txs k = none ∧ ∃ d ∈ devs, d.ip = k ∧ v = newTransaction d)) ∧
    (mapKeys (mockTick devs mtxs pick now).1).Nodup ∧
    (∀ ip t, mapLookup mtxs ip = some t →
      mapLookup (mockTick devs mtxs pick now).1 ip = none ∨
      mapLookup (mockTick devs mtxs pick now).1 ip = some t ∨
      mapLookup (mockTick devs mtxs pick now).1 ip =
        some { t with stageIndex := t.stageIndex + 1, lastUpdate := now }) := by
  refine ⟨?_, fun k v hv => tickCreate_new devs txs cnt picks k v hv, ?_, ?_⟩
  · exact (progressAll_keys_sublist _ _).nodup (tickCreate_nodup devs txs cnt picks h)
  · cases hget : devs[pick % devs.length]? with
    | none => simp only [mockTick, hget]; exact hm
    | some d =>
      cases hlk : mapLookup mtxs d.ip with
      | none =>
        simp only [mockTick, hget, hlk]
        by_cases hfin : STAGE_IDS.length - 1 ≤ (0 : Nat)
        · rw [if_pos hfin]
          exact (mapDelete_keys_sublist _ _).nodup (mapKeys_nodup_mapSet _ _ _ hm)
        · rw [if_neg hfin]
          exact mapKeys_nodup_mapSet _ _ _ hm
      | some t0 =>
        simp only [mockTick, hget, hlk]
        by_cases hfin : STAGE_IDS.length - 1 ≤ t0.stageIndex + 1
        · rw [if_pos hfin]
          exact (mapDelete_keys_sublist _ _).nodup (mapKeys_nodup_mapSet _ _ _ hm)
        · rw [if_neg hfin]
          exact mapKeys_nodup_mapSet _ _ _ hm
  · intro ip t hip
    cases hget : devs[pick % devs.length]? with
    | none => simp only [mockTick, hget]; exact Or.inr (Or.inl hip)
    | some d =>
      by_cases hd : ip = d.ip
      · subst hd
        simp only [mockTick, hget, hip]
        by_cases hfin : STAGE_IDS.length - 1 ≤ t.stageIndex + 1
        · rw [if_pos hfin]
          exact Or.inl (mapDelete_lookup_self _ _)
        · rw [if_neg hfin]
          exact Or.inr (Or.inr (mapLookup_mapSet_self _ _ _))
      · cases hlk : mapLookup mtxs d.ip with
        | none =>
          simp only [mockTick, hget, hlk]
          by_cases hfin : STAGE_IDS.length - 1 ≤ (0 : Nat)
          · rw [if_pos hfin]
            rw [mapDelete_lookup_ne _ _ _ hd, mapLookup_mapSet_ne _ _ _ _ hd]
            exact Or.inr (Or.inl hip)
          · rw [if_neg hfin]
            rw [mapLookup_mapSet_ne _ _ _ _ hd]
            exact Or.inr (Or.inl hip)
        | some t0 =>
          simp only [mockTick, hget, hlk]
          by_cases hfin : STAGE_IDS.length - 1 ≤ t0.stageIndex + 1
          · rw [if_pos hfin]
            rw [mapDelete_lookup_ne _ _ _ hd, mapLookup_mapSet_ne _ _ _ _ hd]
            exact Or.inr (Or.inl hip)
          · rw [if_neg hfin]
            rw [mapLookup_mapSet_ne _ _ _ _ hd]
            exact Or.inr (Or.inl hip)

/-- C2 witness at a concrete input. -/
theorem c2_one_transaction_per_address_witness :
    (mapKeys ([("192.168.1.100",
        newTransaction (seedDevice 0 0))] : List (String × Tx))).Nodup ∧
    (mapKeys ([] : List (String × MockTx))).Nodup ∧
    (mapKeys (serverTick (initialDevices 0)
        [("192.168.1.100", newTransaction (seedDevice 0 0))] 0
        (fun _ => 0) (fun _ => 0))).Nodup :=
  ⟨by decide, by decide,
    (c2_one_transaction_per_address (initialDevices 0)
      [("192.168.1.100", newTransaction (seedDevice 0 0))] 0
      (fun _ => 0) (fun _ => 0) [] 0 0 (by decide) (by decide)).1⟩

/-! ## Population churn: removal discards the transaction (C3) -/

/-- C3: when the population churn removes a device (registry above 45
entries, splice index `10 + random*(length-10)`), the same step deletes any
transaction keyed by the removed device's address, so afterwards no entry
of the active-transaction map references that address. -/
theorem c3_remove_discards_transaction (devs : List Device)
    (txs : List (String × Tx)) (r : Nat) (removed : Device)
    (hlen : 45 < devs.length)
    (hget : devs[10 + r % (devs.length - 10)]? = some removed) :
    mapHasKey (removeStep devs txs r).2 removed.ip = false ∧
    ∀ p ∈ (removeStep devs txs r).2, ¬(p.1 = removed.ip) := by
  have hstep : removeStep devs txs r =
      (devs.eraseIdx (10 + r % (devs.length - 10)), mapDelete txs removed.ip) := by
    simp only [removeStep, if_pos hlen, hget]
  rw [hstep]
  refine ⟨mapDelete_hasKey_self txs removed.ip, ?_⟩
  intro p hp
  have := List.of_mem_filter hp
  simpa using this

/-- C3 witness: removing seeded device 10 (address 192.168.1.110) deletes
its active transaction. -/
theorem c3_remove_discards_transaction_witness :
    45 < (initialDevices 0).length ∧
    (initialDevices 0)[10 + 0 % ((initialDevices 0).length - 10)]? =
      some (seedDevice 0 10) ∧
    mapHasKey (removeStep (initialDevices 0)
        [("192.168.1.110", newTransaction (seedDevice 0 10))] 0).2
      (seedDevice 0 10).ip = false :=
  ⟨by decide, by decide,
    (c3_remove_discards_transaction (initialDevices 0)
      [("192.168.1.110", newTransaction (seedDevice 0 10))] 0
      (seedDevice 0 10) (by decide) (by decide)).1⟩

/-! ## Reconnect backoff and attempt counter (C4) -/

theorem clientStep_attempts (s : ClientState) (e : CEvent) (j : Nat) :
    (clientStep s e j).reconnectAttempts =
      (match e with
       | CEvent.openEvt => 0
       | CEvent.timerFire => s.reconnectAttempts + 1
       | _ => s.reconnectAttempts) := by
  cases e with
  | openEvt => simp [clientStep]
  | closeEvt =>
    by_cases hd : s.disposed <;> simp [clientStep, scheduleReconnect, hd]
  | errorEvt => rfl
  | timerFire =>
    by_cases hd : s.disposed <;> simp [clientStep, startDataListener, hd]
  | docHidden =>
    cases hs : s.socket with
    | none => simp [clientStep, hs]
    | some rs =>
      by_cases hrs : rs = RS.closed <;> simp [clientStep, hs, hrs]
  | docVisible =>
    cases hs : s.socket with
    | none => by_cases hd : s.disposed <;> simp [clientStep, startDataListener, hs, hd]
    | some rs =>
      by_cases hrs : rs = RS.closed
      · by_cases hd : s.disposed <;>
          simp [clientStep, startDataListener, hs, hrs, hd]
      · simp [clientStep, hs, hrs]

/-- C4: the reconnect delay computed for attempt `k` is
`min(1000*2^k, 30000)` plus a jitter below 250 — inside
`[1000*2^k, 1000*2^k + 250]` while uncapped and `[30000, 30250]` once
capped; a close event (unless disposed) arms the timer with exactly the
delay for the current attempt count; and the attempt counter becomes 0 on —
and only on — a successful transport open (every other event preserves it,
except the timer callback which increments it). -/
theorem c4_backoff_delay_and_reset (k j : Nat) (s : ClientState) (e : CEvent) :
    (min (1000 * 2 ^ k) 30000 ≤ reconnectDelay k j ∧
      reconnectDelay k j ≤ min (1000 * 2 ^ k) 30000 + 250) ∧
    (clientStep s CEvent.closeEvt j).reconnectDelayMs =
      (if s.disposed = true then s.reconnectDelayMs
       else reconnectDelay s.reconnectAttempts j) ∧
    (clientStep s e j).reconnectAttempts =
      (match e with
       | CEvent.openEvt => 0
       | CEvent.timerFire => s.reconnectAttempts + 1
       | _ => s.reconnectAttempts) := by
  refine ⟨⟨?_, ?_⟩, ?_, clientStep_attempts s e j⟩
  · unfold reconnectDelay; omega
  · unfold reconnectDelay
    have := Nat.mod_lt j (show 0 < 250 by norm_num)
    omega
  · by_cases hd : s.disposed <;> simp [clientStep, scheduleReconnect, hd]

/-! ## Visibility pause and resume (C10) -/

/-- C10 counterexample: from a connected, visible, live state, hiding the
page closes the socket, and the socket's close event — which carries no
`document.hidden` guard — then schedules a reconnect while the page is
still hidden, contradicting "closed without scheduling any reconnect while
hidden". -/
theorem c10_hidden_reconnect_counterexample :
    ((clientStep (clientStep
        { socket := some RS.opened, reconnectTimerSet := false,
          reconnectDelayMs := 0, reconnectAttempts := 0,
          hidden := false, disposed := false }
        CEvent.docHidden 0) CEvent.closeEvt 0).hidden = true) ∧
    ((clientStep (clientStep
        { socket := some RS.opened, reconnectTimerSet := false,
          reconnectDelayMs := 0, reconnectAttempts := 0,
          hidden := false, disposed := false }
        CEvent.docHidden 0) CEvent.closeEvt 0).reconnectTimerSet = true) := by
  decide

/-- C10 (amended): on becoming hidden the client closes the active
transport and the visibility handler itself arms no reconnect timer, but
the transport's asynchronous close event does schedule a backoff reconnect
even while hidden (the `onclose` handler has no hidden guard); on becoming
visible with no live transport (socket absent or CLOSED) the client
immediately opens a fresh connection without consulting the backoff
timer. -/
theorem c10_visibility_amended (s : ClientState) (j : Nat) :
    (clientStep s CEvent.docHidden j).reconnectTimerSet = s.reconnectTimerSet ∧
    (clientStep s CEvent.docHidden j).hidden = true ∧
    (s.socket = some RS.opened →
      (clientStep s CEvent.docHidden j).socket = some RS.closing) ∧
    (s.disposed = false →
      (clientStep s CEvent.closeEvt j).reconnectTimerSet = true) ∧
    (s.disposed = false → s.socket = none ∨ s.socket = some RS.closed →
      (clientStep s CEvent.docVisible j).socket = some RS.connecting ∧
      (clientStep s CEvent.docVisible j).reconnectTimerSet = s.reconnectTimerSet) := by
  refine ⟨?_, ?_, ?_, ?_, ?_⟩
  · cases hs : s.socket with
    | none => simp [clientStep, hs]
    | some rs => by_cases hrs : rs = RS.closed <;> simp [clientStep, hs, hrs]
  · cases hs : s.socket with
    | none => simp [clientStep, hs]
    | some rs => by_cases hrs : rs = RS.closed <;> simp [clientStep, hs, hrs]
  · intro hs
    simp [clientStep, hs]
  · intro hd
    simp [clientStep, scheduleReconnect, hd]
  · intro hd hs
    rcases hs with hs | hs <;> simp [clientStep, startDataListener, hs, hd]

/-- C10 witness: the amended behavior at a concrete hidden-close-resume
state. -/
theorem c10_visibility_amended_witness :
    (clientStep
      { socket := some RS.closed, reconnectTimerSet := true,
        reconnectDelayMs := 1000, reconnectAttempts := 1,
        hidden := true, disposed := false }
      CEvent.docVisible 0).socket = some RS.connecting :=
  ((c10_visibility_amended
    { socket := some RS.closed, reconnectTimerSet := true,
      reconnectDelayMs := 1000, reconnectAttempts := 1,
      hidden := true, disposed := false } 0).2.2.2.2 rfl (Or.inr rfl)).1

/-! ## Registry address uniqueness (C9) -/

theorem ipNet2_ne_ipNet1 (s t : String) : ¬("192.168.2." ++ s = "192.168.1." ++ t) := by
  intro h
  have hd := congrArg String.data h
  rw [String.data_append, String.data_append] at hd
  have hlen : ("192.168.2." : String).data.length
      = ("192.168.1." : String).data.length := by decide
  have hpre := List.append_inj_left hd hlen
  exact absurd hpre (by decide)

/-- C9 counterexample: the churn trace add → remove(core index) → add
yields a registry in which two dynamically added devices both carry the
address 192.168.2.160, so registry addresses are not pairwise distinct. -/
theorem c9_address_uniqueness_counterexample :
    ¬ ((c9State3.map (fun d => d.ip)).Nodup) := by decide

/-- C9 (amended): the initial seeding produces pairwise distinct addresses,
and a device added by the population manager always has an address
(`192.168.2.x`) distinct from every seeded address (`192.168.1.x`) — but
not necessarily from other dynamically added devices, because the suffix is
recomputed from the current registry length and can repeat after a
removal. -/
theorem c9_address_uniqueness_amended (now now2 : Nat) (devs : List Device)
    (d : Device) :
    ((initialDevices now).map (fun dev => dev.ip)).Nodup ∧
    (d ∈ addStep devs now2 →
      d ∈ devs ∨ ∀ d0 ∈ initialDevices now, ¬(d.ip = d0.ip)) := by
  constructor
  · have hmap : (initialDevices now).map (fun dev => dev.ip)
        = (List.range 60).map (fun i => "192.168.1." ++ toString (100 + i)) := by
      simp [initialDevices, seedDevice, List.map_map, Function.comp]
    rw [hmap]
    decide
  · intro hmem
    unfold addStep at hmem
    by_cases hlen : devs.length < 80
    · rw [if_pos hlen] at hmem
      rcases List.mem_append.mp hmem with hm | hm
      · exact Or.inl hm
      · right
        have hd : d = dynDevice devs.length now2 := by simpa using hm
        subst hd
        intro d0 h0
        have h0' : d0 ∈ (List.range 60).map (seedDevice now) := by
          simpa [initialDevices] using h0
        obtain ⟨i, hi, rfl⟩ := List.mem_map.mp h0'
        exact ipNet2_ne_ipNet1 _ _
    · rw [if_neg hlen] at hmem
      exact Or.inl hmem

/-- C9 witness: the first dynamically added device is genuinely new and its
address avoids every seeded address. -/
theorem c9_address_uniqueness_amended_witness :
    dynDevice 60 0 ∈ initialDevices 0 ∨
      ∀ d0 ∈ initialDevices 0, ¬((dynDevice 60 0).ip = d0.ip) :=
  (c9_address_uniqueness_amended 0 0 (initialDevices 0) (dynDevice 60 0)).2
    (by decide)

/-! ## Decay timers: single-flight discipline (C5) -/

theorem armDecay_pending_spec (s : TrackerState) (name : String) (delay : Nat)
    (h : timerInv s) :
    ∃ pending1 : List (Nat × String × Nat),
      (armDecay s name delay).pending = pending1 ++ [(s.nextId, name, delay)] ∧
      (armDecay s name delay).blinkTimeouts = mapSet s.blinkTimeouts name s.nextId ∧
      (armDecay s name delay).nextId = s.nextId + 1 ∧
      pending1.Sublist s.pending ∧
      (∀ e ∈ pending1, ¬(e.2.1 = name)) := by
  obtain ⟨h1, h2, h3, h4, h5⟩ := h
  cases hlk : mapLookup s.blinkTimeouts name with
  | none =>
    refine ⟨s.pending, by simp [armDecay, hlk], by simp [armDecay, hlk],
      by simp [armDecay, hlk], List.Sublist.refl _, ?_⟩
    intro e he hn
    have hc := h2 e he
    rw [hn, hlk] at hc
    exact Option.noConfusion hc
  | some tid =>
    have htid : 1 ≤ tid := (h4 _ (mapLookup_mem _ _ _ hlk)).1
    have htid0 : ¬(tid = 0) := by omega
    refine ⟨s.pending.filter (fun e => !(e.1 = tid)),
      by simp [armDecay, hlk, htid0], by simp [armDecay, hlk, htid0],
      by simp [armDecay, hlk, htid0], List.filter_sublist _, ?_⟩
    intro e he hn
    have hmemf := List.mem_filter.mp he
    have hne : ¬(e.1 = tid) := by simpa using hmemf.2
    have hc := h2 e hmemf.1
    rw [hn, hlk] at hc
    exact hne (Option.some_injective _ hc.symm)

theorem armDecay_timerInv (s : TrackerState) (name : String) (delay : Nat)
    (h : timerInv s) :
    timerInv (armDecay s name delay) ∧
      ∀ e ∈ (armDecay s name delay).pending, e.2.1 = name →
        e = (s.nextId, name, delay) := by
  obtain ⟨pending1, hpend, hbt, hnid, hsub, hfresh⟩ :=
    armDecay_pending_spec s name delay h
  obtain ⟨h1, h2, h3, h4, h5⟩ := h
  have hsubset : ∀ e, e ∈ pending1 → e ∈ s.pending := fun e he => hsub.subset he
  constructor
  · refine ⟨?_, ?_, ?_, ?_, ?_⟩
    · rw [hpend]
      rw [show (pending1 ++ [(s.nextId, name, delay)]).map (fun e => e.2.1)
            = pending1.map (fun e => e.2.1) ++ [name] by simp]
      rw [List.nodup_append]
      refine ⟨(hsub.map _).nodup h1, List.nodup_singleton _, ?_⟩
      intro x hx hx'
      have hxname : x = name := by simpa using hx'
      subst hxname
      obtain ⟨e, he, hename⟩ := List.mem_map.mp hx
      exact hfresh e he hename
    · rw [hpend, hbt]
      intro e he
      rcases List.mem_append.mp he with he | he
      · have hne : ¬(e.2.1 = name) := hfresh e he
        rw [mapLookup_mapSet_ne _ _ _ _ hne]
        exact h2 e (hsubset e he)
      · have heq : e = (s.nextId, name, delay) := by simpa using he
        subst heq
        exact mapLookup_mapSet_self _ _ _
    · rw [hpend, hnid]
      intro e he
      rcases List.mem_append.mp he with he | he
      · obtain ⟨ha, hb⟩ := h3 e (hsubset e he)
        exact ⟨ha, by omega⟩
      · have heq : e = (s.nextId, name, delay) := by simpa using he
        subst heq
        exact ⟨h5, by omega⟩
    · rw [hbt, hnid]
      intro kv hkv
      rcases mem_mapSet _ _ _ _ hkv with hkv | hkv
      · subst hkv
        exact ⟨h5, by omega⟩
      · obtain ⟨ha, hb⟩ := h4 kv hkv
        exact ⟨ha, by omega⟩
    · rw [hnid]; omega
  · intro e he hname
    rw [hpend] at he
    rcases List.mem_append.mp he with he | he
    · exact absurd hname (hfresh e he)
    · simpa using he

theorem fireDecay_timerInv (s : TrackerState) (tid : Nat) (h : timerInv s) :
    timerInv (fireDecay s tid) := by
  obtain ⟨h1, h2, h3, h4, h5⟩ := h
  cases hfind : s.pending.find? (fun e => e.1 = tid) with
  | none =>
    simp only [fireDecay, hfind]
    exact ⟨h1, h2, h3, h4, h5⟩
  | some entry =>
    have hentry_mem : entry ∈ s.pending := List.mem_of_find?_eq_some hfind
    have hentry_id : entry.1 = tid := by
      have := List.find?_some hfind
      simpa using this
    have hfsub : (s.pending.filter (fun e => !(e.1 = tid))).Sublist s.pending :=
      List.filter_sublist _
    by_cases hdis : s.disposed
    · simp only [fireDecay, hfind, hdis, if_pos]
      refine ⟨(hfsub.map _).nodup h1, ?_, ?_, h4, h5⟩
      · intro e he
        exact h2 e (hfsub.subset he)
      · intro e he
        exact h3 e (hfsub.subset he)
    · simp only [fireDecay, hfind, hdis, if_neg, Bool.false_eq_true,
        not_false_iff]
      refine ⟨(hfsub.map _).nodup h1, ?_, ?_, ?_, h5⟩
      · intro e he
        have hmemf := List.mem_filter.mp he
        have hne_id : ¬(e.1 = tid) := by simpa using hmemf.2
        have hne_name : ¬(e.2.1 = entry.2.1) := by
          intro heq
          have : e = entry :=
            List.inj_on_of_nodup_map h1 hmemf.1 hentry_mem heq
          rw [this] at hne_id
          exact hne_id hentry_id
        rw [mapDelete_lookup_ne _ _ _ hne_name]
        exact h2 e hmemf.1
      · intro e he
        exact h3 e (hfsub.subset he)
      · intro kv hkv
        exact h4 kv (mem_mapDelete _ _ _ hkv)

/-- C5: the decay-timer discipline is single-flight.  The invariant — at
most one outstanding timer per entity, each recorded in `blinkTimeouts` —
is preserved by arming (which always cancels the recorded prior timer
first) and by a timer firing; after arming, the only outstanding timer for
the entity is the newly armed one, so of two timers armed for the same
entity at most the newer can ever fire; and the full packet handler
preserves the invariant. -/
theorem c5_single_flight_decay_timers (s : TrackerState) (name : String)
    (delay tid : Nat) (p : Packet) (h : timerInv s) :
    timerInv (armDecay s name delay) ∧
    (∀ e ∈ (armDecay s name delay).pending, e.2.1 = name →
      e = (s.nextId, name, delay)) ∧
    timerInv (fireDecay s tid) ∧
    timerInv (handleIncomingPacket s p) := by
  refine ⟨(armDecay_timerInv s name delay h).1, (armDecay_timerInv s name delay h).2,
    fireDecay_timerInv s tid h, ?_⟩
  by_cases hdis : s.disposed
  · simp only [handleIncomingPacket, hdis, if_pos]
    exact h
  · cases hsrc : p.source with
    | none =>
      simp only [handleIncomingPacket, hdis, hsrc, Bool.false_eq_true, if_neg,
        not_false_iff]
      exact h
    | some src =>
      by_cases hemp : src = ""
      · simp only [handleIncomingPacket, hdis, hsrc, hemp, Bool.false_eq_true,
          if_neg, not_false_iff, if_pos]
        exact h
      · by_cases hjoin : p.ptype = some "device_join"
        · simp only [handleIncomingPacket, hdis, hsrc, hemp, hjoin,
            Bool.false_eq_true, not_false_iff, if_neg, if_pos]
          exact h
        · by_cases hexit : p.ptype = some "device_exit"
          · simp only [handleIncomingPacket, hdis, hsrc, hemp, hjoin, hexit,
              Bool.false_eq_true, not_false_iff, if_neg, if_pos]
            exact h
          · cases hfind : findTarget s.nodes src with
            | none =>
              simp only [handleIncomingPacket, hdis, hsrc, hemp, hjoin, hexit,
                hfind, Bool.false_eq_true, not_false_iff, if_neg]
              exact h
            | some target =>
              simp only [handleIncomingPacket, hdis, hsrc, hemp, hjoin, hexit,
                hfind, Bool.false_eq_true, not_false_iff, if_neg]
              exact (armDecay_timerInv _ target.name _ h).1

/-- C5 witness at a concrete tracker state with one armed timer. -/
theorem c5_single_flight_decay_timers_witness :
    timerInv (armDecay
      { nodes := [], blinkTimeouts := [("IoT Node A", 1)],
        pending := [(1, "IoT Node A", 1100)], nextId := 2, disposed := false }
      "IoT Node A" 3000) :=
  (c5_single_flight_decay_timers
    { nodes := [], blinkTimeouts := [("IoT Node A", 1)],
      pending := [(1, "IoT Node A", 1100)], nextId := 2, disposed := false }
    "IoT Node A" 3000 1
    { source := some "192.168.1.100", ptype := none, stageId := none,
      throughput := none, isLastStage := false }
    (by decide)).1

/-! ## Decay durations and fire effects (C6) -/

theorem find?_updateFirst {α : Type} (l : List α) (pred : α → Bool) (f : α → α)
    (hpf : ∀ a, pred (f a) = pred a) :
    (updateFirst l pred f).find? pred = (l.find? pred).map f := by
  induction l with
  | nil => simp [updateFirst]
  | cons x rest ih =>
    by_cases hx : pred x
    · rw [show updateFirst (x :: rest) pred f = f x :: rest by
          simp [updateFirst, hx]]
      rw [List.find?_cons_of_pos _ (by rw [hpf]; exact hx)]
      rw [List.find?_cons_of_pos _ hx]
      rfl
    · rw [show updateFirst (x :: rest) pred f = x :: updateFirst rest pred f by
          simp [updateFirst, hx]]
      rw [List.find?_cons_of_neg _ (by simpa using hx)]
      rw [List.find?_cons_of_neg _ (by simpa using hx)]
      exact ih

theorem armDecay_arms (st : TrackerState) (nm : String) (dl : Nat) :
    (armDecay st nm dl).pending.getLast? = some (st.nextId, nm, dl) ∧
    mapLookup (armDecay st nm dl).blinkTimeouts nm = some st.nextId := by
  cases hlk : mapLookup st.blinkTimeouts nm with
  | none =>
    constructor
    · rw [show (armDecay st nm dl).pending = st.pending ++ [(st.nextId, nm, dl)] by
          simp [armDecay, hlk]]
      exact List.getLast?_concat _
    · rw [show (armDecay st nm dl).blinkTimeouts = mapSet st.blinkTimeouts nm st.nextId by
          simp [armDecay, hlk]]
      exact mapLookup_mapSet_self _ _ _
  | some tid =>
    by_cases htid : tid = 0
    · constructor
      · rw [show (armDecay st nm dl).pending = st.pending ++ [(st.nextId, nm, dl)] by
            simp [armDecay, hlk, htid]]
        exact List.getLast?_concat _
      · rw [show (armDecay st nm dl).blinkTimeouts = mapSet st.blinkTimeouts nm st.nextId by
            simp [armDecay, hlk, htid]]
        exact mapLookup_mapSet_self _ _ _
    · constructor
      · rw [show (armDecay st nm dl).pending =
            st.pending.filter (fun e => !(e.1 = tid)) ++ [(st.nextId, nm, dl)] by
            simp [armDecay, hlk, htid]]
        exact List.getLast?_concat _
      · rw [show (armDecay st nm dl).blinkTimeouts = mapSet st.blinkTimeouts nm st.nextId by
            simp [armDecay, hlk, htid]]
        exact mapLookup_mapSet_self _ _ _

/-- C6: a telemetry event for a known entity arms its decay timer for
3000 ms when `isLastStage` is truthy and 1100 ms otherwise (recording the
new timer id for the entity), and when an outstanding decay timer fires
(component not disposed) the entity's blink flag is cleared, its throughput
is zeroed, and its timer-map entry is removed. -/
theorem c6_decay_durations_and_fire_effects (s : TrackerState) (p : Packet)
    (src : String) (target : TopoNode) (s2 : TrackerState)
    (tid : Nat) (nm : String) (d : Nat)
    (hdis : s.disposed = false)
    (hsrc : p.source = some src)
    (hemp : ¬(src = ""))
    (hjoin : ¬(p.ptype = some "device_join"))
    (hexit : ¬(p.ptype = some "device_exit"))
    (hfind : findTarget s.nodes src = some target)
    (hfind2 : s2.pending.find? (fun e => e.1 = tid) = some (tid, nm, d))
    (hdis2 : s2.disposed = false) :
    ((handleIncomingPacket s p).pending.getLast? =
      some (s.nextId, target.name, if p.isLastStage then 3000 else 1100)) ∧
    mapLookup (handleIncomingPacket s p).blinkTimeouts target.name = some s.nextId ∧
    mapLookup (fireDecay s2 tid).blinkTimeouts nm = none ∧
    ((fireDecay s2 tid).nodes.find? (fun n => n.name = nm) =
      (s2.nodes.find? (fun n => n.name = nm)).map
        (fun n => { n with isBlinking := false, throughput := 0 })) := by
  have hhandle : handleIncomingPacket s p =
      armDecay { s with nodes := updateFirst s.nodes (fun n => matchesSource n src) (applyPacket p) }
        target.name (if p.isLastStage then 3000 else 1100) := by
    simp only [handleIncomingPacket, hdis, hsrc, hemp, hjoin, hexit, hfind,
      Bool.false_eq_true, not_false_iff, if_neg]
  have hfire : fireDecay s2 tid =
      { s2 with
        pending := s2.pending.filter (fun e => !(e.1 = tid)),
        nodes := updateFirst s2.nodes (fun n => n.name = nm) (fun n => { n with isBlinking := false, throughput := 0 }),
        blinkTimeouts := mapDelete s2.blinkTimeouts nm } := by
    simp only [fireDecay, hfind2, hdis2, Bool.false_eq_true, if_neg,
      not_false_iff]
  refine ⟨?_, ?_, ?_, ?_⟩
  · rw [hhandle]
    exact (armDecay_arms _ _ _).1
  · rw [hhandle]
    exact (armDecay_arms _ _ _).2
  · rw [hfire]
    exact mapDelete_lookup_self _ _
  · rw [hfire]
    exact find?_updateFirst s2.nodes (fun n => n.name = nm)
      (fun n => { n with isBlinking := false, throughput := 0 })
      (fun n => rfl)

/-- C6 witness: a known-entity ENCRYPT packet arms an 1100 ms timer. -/
theorem c6_decay_durations_and_fire_effects_witness :
    (handleIncomingPacket
      { nodes := [{ name := "IoT Node A", value := "192.168.1.100", stageId := "AUTH", isBlinking := false, throughput := 0 }], blinkTimeouts := [], pending := [], nextId := 1, disposed := false }
      { source := some "192.168.1.100", ptype := none, stageId := some "ENCRYPT", throughput := some 500, isLastStage := false }).pending.getLast? =
      some (1, "IoT Node A", if false then 3000 else 1100) :=
  (c6_decay_durations_and_fire_effects
    { nodes := [{ name := "IoT Node A", value := "192.168.1.100", stageId := "AUTH", isBlinking := false, throughput := 0 }], blinkTimeouts := [], pending := [], nextId := 1, disposed := false }
    { source := some "192.168.1.100", ptype := none, stageId := some "ENCRYPT", throughput := some 500, isLastStage := false }
    "192.168.1.100"
    { name := "IoT Node A", value := "192.168.1.100", stageId := "AUTH", isBlinking := false, throughput := 0 }
    { nodes := [], blinkTimeouts := [("IoT Node A", 1)], pending := [(1, "IoT Node A", 1100)], nextId := 2, disposed := false }
    1 "IoT Node A" 1100
    rfl rfl (by decide) (by decide) (by decide) (by decide) (by decide) rfl).1

/-! ## Render coalescing (C7) -/

theorem scheduleRender_queued_id (s : RenderState) (h : s.renderQueued = true) :
    scheduleRender s = s := by
  simp [scheduleRender, h]

/-- C7: between two animation frames, N ≥ 1 render requests from a live,
idle coalescer produce exactly one redraw at the next frame boundary (and
leave the queue clear); a request made while a render is already queued
changes nothing; and a frame boundary with no queued render performs no
redraw. -/
theorem c7_render_coalescing (s s' : RenderState) (N : Nat)
    (hch : s.chartAlive = true) (hb : s.builderAlive = true)
    (hd : s.disposed = false) (hq : s.renderQueued = false)
    (hN : 1 ≤ N) (hq' : s'.renderQueued = true) :
    (frameFire (scheduleRender^[N] s)).renders = s.renders + 1 ∧
    (frameFire (scheduleRender^[N] s)).renderQueued = false ∧
    scheduleRender s' = s' ∧
    (frameFire s).renders = s.renders := by
  have hone : scheduleRender s = { s with renderQueued := true } := by
    simp [scheduleRender, hch, hb, hd, hq]
  have hiter : scheduleRender^[N] s = { s with renderQueued := true } := by
    cases N with
    | zero => omega
    | succ m =>
      rw [Function.iterate_succ_apply, hone]
      exact Function.iterate_fixed (scheduleRender_queued_id _ rfl) m
  rw [hiter]
  refine ⟨?_, ?_, scheduleRender_queued_id s' hq', ?_⟩
  · simp [frameFire, hd, hch]
  · simp [frameFire, hd, hch]
  · simp [frameFire, hq]

/-- C7 witness: three requests in one cycle, one redraw. -/
theorem c7_render_coalescing_witness :
    (frameFire (scheduleRender^[3]
      { chartAlive := true, builderAlive := true, renderQueued := false, disposed := false, renders := 0 })).renders =
      ({ chartAlive := true, builderAlive := true, renderQueued := false, disposed := false, renders := 0 } : RenderState).renders + 1 :=
  (c7_render_coalescing
    { chartAlive := true, builderAlive := true, renderQueued := false, disposed := false, renders := 0 }
    { chartAlive := true, builderAlive := true, renderQueued := true, disposed := false, renders := 0 }
    3 rfl rfl rfl rfl (by omega) rfl).1

/-! ## POST /api/telemetry (C8) -/

/-- C8 counterexample: `dev-a` is a registered device and its `deviceId` is
a well-formed string, so by the claim the request should be merged and
re-broadcast; but with a numeric `metrics` field the endpoint answers 400
and broadcasts nothing (the metrics type guard is a failure case the claim
omits). -/
theorem c8_post_telemetry_counterexample :
    (∃ dev ∈ c8State.devices, dev.id = "dev-a") ∧
    otruthy c8Payload.deviceId = true ∧ oIsString c8Payload.deviceId = true ∧
    (postTelemetry c8State c8Payload 0).1 =
      PostResp.badRequest "metrics must be object" ∧
    (postTelemetry c8State c8Payload 0).2.2 = [] := by
  refine ⟨⟨seedDevice 0 0, by decide, by decide⟩, by decide, by decide,
    by decide, by decide⟩

/-- C8 (amended): a falsy or non-string `deviceId` gives 400; a truthy
non-object `metrics` also gives 400 (even for a registered device); an
unknown device gives 404; in every failure case the registry and
`latestMetrics` are untouched and nothing is broadcast; otherwise the
device's `lastSeen`/`status` are refreshed, truthy `metrics` are merged
into `latestMetrics`, and `{type:"telemetry", ts:now, ...payload}` is
broadcast. -/
theorem c8_post_telemetry_amended (s : SState) (p : PostPayload) (now : Nat)
    (did : String) (dev : Device) :
    ((!(otruthy p.deviceId) || !(oIsString p.deviceId)) = true →
      postTelemetry s p now = (PostResp.badRequest "deviceId required", s, [])) ∧
    ((!(otruthy p.deviceId) || !(oIsString p.deviceId)) = false →
      (otruthy p.metrics && !(oIsObject p.metrics)) = true →
      postTelemetry s p now = (PostResp.badRequest "metrics must be object", s, [])) ∧
    ((!(otruthy p.deviceId) || !(oIsString p.deviceId)) = false →
      (otruthy p.metrics && !(oIsObject p.metrics)) = false →
      p.deviceId = some (JVal.jstr did) →
      s.devices.find? (fun d => d.id = did) = none →
      postTelemetry s p now = (PostResp.notFound "device not found", s, [])) ∧
    ((!(otruthy p.deviceId) || !(oIsString p.deviceId)) = false →
      (otruthy p.metrics && !(oIsObject p.metrics)) = false →
      p.deviceId = some (JVal.jstr did) →
      s.devices.find? (fun d => d.id = did) = some dev →
      postTelemetry s p now =
        (PostResp.ok,
         { devices := updateFirst s.devices (fun d => d.id = did) (fun d => { d with lastSeen := now, status := statusVal p.status }),
           latestMetrics := if otruthy p.metrics then mergeObj s.latestMetrics (jfields p.metrics) else s.latestMetrics },
         [{ ts := now, payload := p }])) := by
  refine ⟨?_, ?_, ?_, ?_⟩
  · intro h1
    simp only [postTelemetry, h1, if_pos]
  · intro h1 h2
    simp only [postTelemetry, h1, h2, Bool.false_eq_true, if_neg,
      not_false_iff, if_pos]
  · intro h1 h2 hdid hfind
    rw [hdid] at h1
    simp only [postTelemetry, h1, h2, hdid, hfind, Bool.false_eq_true,
      if_neg, not_false_iff]
  · intro h1 h2 hdid hfind
    rw [hdid] at h1
    simp only [postTelemetry, h1, h2, hdid, hfind, Bool.false_eq_true,
      if_neg, not_false_iff]

/-- C8 witness: a request without `deviceId` is rejected with 400, no state
change and no broadcast. -/
theorem c8_post_telemetry_amended_witness :
    postTelemetry c8State
      { deviceId := none, status := none, metrics := none } 0 =
      (PostResp.badRequest "deviceId required", c8State, []) :=
  (c8_post_telemetry_amended c8State
    { deviceId := none, status := none, metrics := none } 0 "dev-a"
    (seedDevice 0 0)).1 rfl

end RiscvUI
